import Mathlib

/-!
Formal model of the specification codec and request handlers in
`src/amun/api_v1.py` (Amun API v1).

The documents handled by the API are JSON-like Python values: dicts with
string keys, lists, strings, ints, bools and `None`.  We embed them as the
inductive type `Value`; Python dicts become association lists that keep
insertion order, as Python 3.7+ dicts do.
-/

/-- The single-quote character `'` (code point 39), central to the escaping
logic of `_parse_specification` / `_unparse_specification`. -/
def sqc : Char := Char.ofNat 39

/-- A JSON-like Python value as handled by the Amun API: dict (insertion
ordered, unique string keys), list, str, int, bool or None. -/
inductive Value where
  | str (s : String)
  | intV (n : Int)
  | boolV (b : Bool)
  | nullV
  | arr (items : List Value)
  | obj (fields : List (String × Value))
  

/-- A Python dict with string keys, as an insertion-ordered association
list. -/
abbrev Fields := List (String × Value)

/-- Lookup `d[key]` / `d.get(key)` on a Python dict: the value at the first
(and, for genuine dicts, only) occurrence of the key. -/
def getKey (d : List (String × Value)) (k : String) : Option Value :=
  match d with
  | [] => none
  | kv :: rest => if kv.1 = k then some kv.2 else getKey rest k

/-- Assignment `d[key] = v` on a Python dict: replaces the value in place
when the key is present, otherwise appends the new key at the end
(Python 3.7+ insertion order). -/
def setKey (d : List (String × Value)) (k : String) (v : Value) :
    List (String × Value) :=
  match d with
  | [] => [(k, v)]
  | kv :: rest => if kv.1 = k then (k, v) :: rest else kv :: setKey rest k v

/-- Membership test `key in d` on a Python dict: for a dict, `in` holds
exactly when lookup finds the key. -/
def hasKey (d : Fields) (k : String) : Bool :=
  (getKey d k).isSome

/-- `re.sub(r"'(?!')", "''", s)` on the character list of `s`: scanning left
to right, a single quote that is not immediately followed by another single
quote is replaced by a doubled quote; a quote that is followed by a quote is
copied and scanning resumes at the next character. -/
def escChars : List Char → List Char
  | [] => []
  | c :: rest =>
    if c = sqc then
      match rest with
      | d :: _ => if d = sqc then c :: escChars rest else sqc :: sqc :: escChars rest
      | [] => sqc :: sqc :: []
    else c :: escChars rest

/-- `re.sub(r"''", "'", s)` on the character list of `s`: scanning left to
right, each non-overlapping doubled quote is replaced by a single quote. -/
def unescChars : List Char → List Char
  | [] => []
  | [c] => [c]
  | c :: d :: rest2 =>
    if c = sqc && d = sqc then sqc :: unescChars rest2
    else c :: unescChars (d :: rest2)

/-- Forward escaping of one string leaf by `_escape_single_quotes`. -/
def escStr (s : String) : String := String.mk (escChars s.data)

/-- Inverse unescaping of one string leaf by `_unescape_single_quotes`. -/
def unescStr (s : String) : String := String.mk (unescChars s.data)

/-- `noTripleQuote l` holds when `l` contains no three consecutive single
quotes, i.e. every maximal run of quotes has length at most 2. -/
def noTripleQuote : List Char → Bool
  | a :: b :: c :: rest =>
    !(a = sqc && b = sqc && c = sqc) && noTripleQuote (b :: c :: rest)
  | _ => true

/-! ## The recursive escaper of `_parse_specification` / `_unparse_specification`

`_escape_single_quotes` (src/amun/api_v1.py lines 107-117) walks a document
depth-first: dict values and list items are rewritten with the recursive
result, string leaves are escaped, every other scalar is returned unchanged.
`_unescape_single_quotes` (lines 144-154) is the same walk with the inverse
substitution on string leaves.  The functions below compute the value each
walk produces. -/

mutual
/-- Result of `_escape_single_quotes` on a single value. -/
def escapeV : Value → Value
  | .str s => .str (escStr s)
  | .arr items => .arr (escapeL items)
  | .obj fields => .obj (escapeF fields)
  | v => v
/-- Result of `_escape_single_quotes` on the items of a list. -/
def escapeL : List Value → List Value
  | [] => []
  | v :: rest => escapeV v :: escapeL rest
/-- Result of `_escape_single_quotes` on the entries of a dict (keys are not
touched: the walk iterates over keys and rewrites only the values). -/
def escapeF : Fields → Fields
  | [] => []
  | (k, v) :: rest => (k, escapeV v) :: escapeF rest
end

mutual
/-- Result of `_unescape_single_quotes` on a single value. -/
def unescapeV : Value → Value
  | .str s => .str (unescStr s)
  | .arr items => .arr (unescapeL items)
  | .obj fields => .obj (unescapeF fields)
  | v => v
/-- Result of `_unescape_single_quotes` on the items of a list. -/
def unescapeL : List Value → List Value
  | [] => []
  | v :: rest => unescapeV v :: unescapeL rest
/-- Result of `_unescape_single_quotes` on the entries of a dict. -/
def unescapeF : Fields → Fields
  | [] => []
  | (k, v) :: rest => (k, unescapeV v) :: unescapeF rest
end

mutual
/-- Every string leaf of the value has quote runs of length at most 2. -/
def okQuotesV : Value → Bool
  | .str s => noTripleQuote s.data
  | .arr items => okQuotesL items
  | .obj fields => okQuotesF fields
  | _ => true
/-- `okQuotesV` on every item of a list. -/
def okQuotesL : List Value → Bool
  | [] => true
  | v :: rest => okQuotesV v && okQuotesL rest
/-- `okQuotesV` on every value of a dict. -/
def okQuotesF : Fields → Bool
  | [] => true
  | (_, v) :: rest => okQuotesV v && okQuotesF rest
end

/-! ## Python builtins used by the codec: `str`, `int`, truthiness, `or` -/

/-- Python `repr` of a string: the text between single quotes (the
rendering of strings that would need further escaping is not exercised by
the codec: `str` is only applied to the three integer-valued fields). -/
def pyReprStr (s : String) : String :=
  String.mk [sqc] ++ s ++ String.mk [sqc]

mutual
/-- Python `repr` of a value, used by `str` on containers. -/
def pyRepr : Value → String
  | .str s => pyReprStr s
  | .intV n => toString n
  | .boolV b => if b then "True" else "False"
  | .nullV => "None"
  | .arr items => "[" ++ pyReprL items ++ "]"
  | .obj fields => "\x7b" ++ pyReprF fields ++ "\x7d"
/-- Python `repr` of the items of a list: the first item, then each further
item preceded by a comma separator. -/
def pyReprL : List Value → String
  | [] => ""
  | v :: rest => pyRepr v ++ pyReprLTail rest
/-- The items after the first, each preceded by `", "`. -/
def pyReprLTail : List Value → String
  | [] => ""
  | v :: rest => ", " ++ pyRepr v ++ pyReprLTail rest
/-- Python `repr` of the entries of a dict: the first entry, then each
further entry preceded by a comma separator. -/
def pyReprF : Fields → String
  | [] => ""
  | (k, v) :: rest => pyReprStr k ++ ": " ++ pyRepr v ++ pyReprFTail rest
/-- The entries after the first, each preceded by `", "`. -/
def pyReprFTail : Fields → String
  | [] => ""
  | (k, v) :: rest => ", " ++ pyReprStr k ++ ": " ++ pyRepr v ++ pyReprFTail rest
end

/-- Python `str()`: a string is returned as itself, every other value is
rendered by `repr`.  `_parse_specification` applies it to the values of the
`allowed_failures` / `batch_size` / `parallelism` fields. -/
def pyStr : Value → String
  | .str s => s
  | v => pyRepr v

/-- The digits of a decimal literal accumulated into a number; `none` as
soon as a non-digit character appears. -/
def digitsToNatAux : List Char → Nat → Option Nat
  | [], acc => some acc
  | c :: rest, acc =>
    if c.isDigit then digitsToNatAux rest (acc * 10 + (c.toNat - 48)) else none

/-- A non-empty all-digit character list read as a decimal number. -/
def digitsToNat : List Char → Option Nat
  | [] => none
  | l => digitsToNatAux l 0

/-- Python `int()` applied to a string: an optional sign followed by a
non-empty run of decimal digits; anything else raises `ValueError`
(modelled as `none`). -/
def pyParseInt (s : String) : Option Int :=
  match s.data with
  | [] => none
  | c :: rest =>
    if c = '-' then (digitsToNat rest).map (fun n => -(n : Int))
    else if c = '+' then (digitsToNat rest).map (fun n => (n : Int))
    else (digitsToNat s.data).map (fun n => (n : Int))

/-- Python `int()` applied to a value, as used by `_unparse_specification`:
ints pass through, bools become 0/1, strings are parsed as decimal literals
(`ValueError` on failure), everything else raises `TypeError`. -/
def pyInt : Value → Except String Int
  | .intV n => .ok n
  | .boolV b => .ok (if b then 1 else 0)
  | .str s =>
    match pyParseInt s with
    | some n => .ok n
    | none => .error ("ValueError: invalid literal for int() with base 10: " ++ s)
  | _ => .error "TypeError: int() argument must be a string or a number"

/-- Python truthiness of a value, as tested by the `or` operator in
`_adjust_default_requests`: empty strings, zero, `False`, `None` and empty
containers are falsy. -/
def pyTruthy : Value → Bool
  | .str s => s ≠ ""
  | .intV n => n ≠ 0
  | .boolV b => b
  | .nullV => false
  | .arr [] => false
  | .arr _ => true
  | .obj [] => false
  | .obj _ => true

/-- Python `a or b`: `a` when `a` is truthy, otherwise `b`. -/
def pyOr (a b : Value) : Value := if pyTruthy a then a else b

/-- Python `d.get(k)`: the stored value, or `None` when the key is absent. -/
def getDefaultNone (d : Fields) (k : String) : Value :=
  (getKey d k).getD .nullV

/-! ## The specification codec -/

/-- The field list `int_to_str` of `_parse_specification`
(src/amun/api_v1.py line 121). -/
def int_to_str : List String := ["allowed_failures", "batch_size", "parallelism"]

/-- The field list `str_to_int` of `_unparse_specification` (line 158): the
same three fields. -/
def str_to_int : List String := ["allowed_failures", "batch_size", "parallelism"]

/-- One iteration of the `int_to_str` loop of `_parse_specification`
(lines 122-126): when `key` is present in the original `specification`,
`parsed_specification[key]` is assigned `str(specification[key])` — note
that the value read is the one of the original argument, not the escaped
copy; absent keys are skipped. -/
def castIntToStr (specification : Fields) (parsed : Fields) (key : String) :
    Fields :=
  match getKey specification key with
  | none => parsed
  | some v => setKey parsed key (.str (pyStr v))

/-- `_parse_specification` (src/amun/api_v1.py lines 100-134): escape every
string leaf, cast the three integer fields to their `str()` form, then
insert empty `build` and `run` dicts when those keys are absent.  This is
the value of the returned document. -/
def parse_specification (specification : Fields) : Fields :=
  let parsed := escapeF specification
  let parsed := int_to_str.foldl (castIntToStr specification) parsed
  let parsed := if hasKey parsed "build" then parsed else setKey parsed "build" (.obj [])
  if hasKey parsed "run" then parsed else setKey parsed "run" (.obj [])

/-- One iteration of the `str_to_int` loop of `_unparse_specification`
(lines 159-163): keys absent from the copy are skipped; for a present key
the copy is assigned `int(parsed_specification[key])`, the conversion being
applied to the value of the original argument (the top-level value of the
copy was rebound by the unescape walk, the original is still the escaped
string); a `ValueError` / `TypeError` of `int()` propagates. -/
def castStrToInt (parsed : Fields) (specification : Fields) (key : String) :
    Except String Fields :=
  if hasKey specification key then
    match getKey parsed key with
    | some v => (pyInt v).map (fun n => setKey specification key (.intV n))
    | none => .error "KeyError"
  else .ok specification

/-- `_unparse_specification` (src/amun/api_v1.py lines 137-165): unescape
every string leaf, then cast the three integer fields back with `int()`,
a conversion failure propagating as the raised error.  No `build`/`run`
defaults are inserted. -/
def unparse_specification (parsed_specification : Fields) :
    Except String Fields :=
  let specification := unescapeF parsed_specification
  str_to_int.foldlM (fun spec key => castStrToInt parsed_specification spec key)
    specification

/-- The `build`/`run` defaulting of `_parse_specification` alone: the
document with an empty `build` dict appended when absent, then an empty
`run` dict appended when absent. -/
def withDefaults (d : Fields) : Fields :=
  let d1 := if hasKey d "build" then d else setKey d "build" (.obj [])
  if hasKey d1 "run" then d1 else setKey d1 "run" (.obj [])

/-- `True` exactly for dicts and lists: the Python values that
`specification.copy()` shares with the caller and that
`_escape_single_quotes` rewrites in place. -/
def isContainer : Value → Bool
  | .arr _ => true
  | .obj _ => true
  | _ => false

/-- The CALLER's document after `_parse_specification(specification)`
returns.  Line 105 takes a SHALLOW copy (`specification.copy()`), so the
copy's top-level slots alias the caller's values.  The escape walk
(lines 107-119) rebinds top-level string leaves in the copy only, but for a
dict or list value it mutates that very object in place — the object the
caller's document still holds.  The later `int_to_str` assignments and the
`build`/`run` insertions write to the copy only.  Hence after the call the
caller's dict has the same keys, its non-container values are untouched,
and each dict or list value has been escaped in place. -/
def docAfterParse (specification : Fields) : Fields :=
  specification.map
    (fun kv => (kv.1, if isContainer kv.2 then escapeV kv.2 else kv.2))

/-! ## `_adjust_default_requests` -/

/-- `_DEFAULT_REQUESTS["cpu"]` (src/amun/api_v1.py line 45). -/
def DEFAULT_REQUESTS_cpu : Value := .str "500m"

/-- `_DEFAULT_REQUESTS["memory"]` (src/amun/api_v1.py line 45). -/
def DEFAULT_REQUESTS_memory : Value := .str "256Mi"

/-- `_adjust_default_requests` (src/amun/api_v1.py lines 91-97): insert an
empty `requests` dict when the key is absent, then assign
`requests["cpu"] = requests.get("cpu") or "500m"` and
`requests["memory"] = requests.get("memory") or "256Mi"` (the memory read
happening after the cpu write).  The function mutates its argument in
place; its value here is the argument's post-state.  When `requests` holds
a non-dict value, `.get` raises `AttributeError`. -/
def adjust_default_requests (dict_ : Fields) : Except String Fields :=
  let d1 := if hasKey dict_ "requests" then dict_
            else setKey dict_ "requests" (.obj [])
  match getKey d1 "requests" with
  | some (.obj r) =>
    let r1 := setKey r "cpu" (pyOr (getDefaultNone r "cpu") DEFAULT_REQUESTS_cpu)
    let r2 := setKey r1 "memory"
      (pyOr (getDefaultNone r1 "memory") DEFAULT_REQUESTS_memory)
    .ok (setKey d1 "requests" (.obj r2))
  | some _ => .error "AttributeError: object has no attribute get"
  | none => .error "KeyError: requests"

/-! ## `post_inspection`: the 202 success response (C4)

`post_inspection` (src/amun/api_v1.py lines 168-217) binds, in order and on
the path where dockerfile generation succeeds and the scheduling call
returns: `specification` (the parameter, later rebound), `dockerfile`
(later rebound), `run_job_or_error`, `run_job`, `parameters`,
`use_hw_template`, `target`, `workflow_id`.  The return statement at
lines 209-217 builds a dict whose value expressions are, in evaluation
order, `inspection_id`, `specification`, `workflow_id`, `target`.  Python
resolves each name against the bound locals; an unbound local raises
`NameError` before the tuple is returned. -/

/-- The local environment of `post_inspection` at its final return
statement, parameterised by the values the genuinely bound names hold. -/
def postInspectionLocals (specification : Fields) (dockerfile : String)
    (run_job_or_error run_job : Value) (parameters : Fields)
    (use_hw_template : Bool) (target workflow_id : String) : Fields :=
  [("specification", .obj specification),
   ("dockerfile", .str dockerfile),
   ("run_job_or_error", run_job_or_error),
   ("run_job", run_job),
   ("parameters", .obj parameters),
   ("use_hw_template", .boolV use_hw_template),
   ("target", .str target),
   ("workflow_id", .str workflow_id)]

/-- Python name resolution at a use site: the bound value, or `NameError`
for a name with no binding. -/
def evalName (env : Fields) (n : String) : Except String Value :=
  match getKey env n with
  | some v => .ok v
  | none => .error ("NameError: name " ++ n ++ " is not defined")

/-- Evaluation of the 202 return expression of `post_inspection`
(lines 209-217): the dict values `inspection_id`, `specification`,
`workflow_id`, `target` are resolved in evaluation order and the tuple
`(body, 202)` is produced only when all of them are bound. -/
def postInspectionSuccessReturn (env : Fields) : Except String (Value × Nat) := do
  let i ← evalName env "inspection_id"
  let s ← evalName env "specification"
  let w ← evalName env "workflow_id"
  let t ← evalName env "target"
  return (.obj [("inspection_id", i), ("parameters", s),
                ("workflow_id", w), ("workflow_target", t)], 202)

/-! ## `get_inspection_job_log` (C9) -/

/-- Outcome of the `_OPENSHIFT.get_job_log` call in
`get_inspection_job_log` (line 231): either it raises `NotFoundException`
or it returns a log string. -/
inductive JobLogFetch where
  | notFound
  | fetched (log : String)

/-- The `parameters` dict built at line 229. -/
def jobLogParams (inspection_id : String) : Value :=
  .obj [("inspection_id", .str inspection_id)]

/-- The body of the inner `try` of the `NotFoundException` handler
(lines 233-237): it only builds a tuple of literals around `parameters`
and returns it.  Building and returning literal values cannot raise
`NotFoundException`, so in the exception monad the body is `.ok`. -/
def jobLogNotFoundInnerTry (inspection_id : String) :
    Except Unit (Value × Nat) :=
  .ok (.obj [("error", .str "No logs available yet for the given inspection id"),
             ("parameters", jobLogParams inspection_id)], 202)

/-- The whole `NotFoundException` handler (lines 232-244): run the inner
`try`; only if it raised `NotFoundException` would the `pass` branch fall
through to the 404 return. -/
def jobLogNotFoundHandler (inspection_id : String) : Value × Nat :=
  match jobLogNotFoundInnerTry inspection_id with
  | .ok r => r
  | .error _ =>
    (.obj [("error", .str "Job log for the given inspection id was not found"),
           ("parameters", jobLogParams inspection_id)], 404)

/-- The 404 response of lines 241-244, the one C9 says is unreachable. -/
def jobLogNotFound404 (inspection_id : String) : Value × Nat :=
  (.obj [("error", .str "Job log for the given inspection id was not found"),
         ("parameters", jobLogParams inspection_id)], 404)

/-- `get_inspection_job_log` (src/amun/api_v1.py lines 227-264), with the
orchestrator call abstracted as a `JobLogFetch` and `json.loads`
abstracted as a parser returning `none` on failure: a `NotFoundException`
goes through the handler above; an empty log yields 404, an unparsable log
500, a parsed log 200. -/
def get_inspection_job_log (inspection_id : String) (fetch : JobLogFetch)
    (jsonLoads : String → Option Value) : Value × Nat :=
  match fetch with
  | .notFound => jobLogNotFoundHandler inspection_id
  | .fetched log =>
    if log = "" then
      (.obj [("error",
              .str "Inspection run did not produce any log or it was deleted by OpenShift"),
             ("parameters", jobLogParams inspection_id)], 404)
    else
      match jsonLoads log with
      | none =>
        (.obj [("error",
                .str "Job failed, please contact administrator for more details"),
               ("parameters", jobLogParams inspection_id)], 500)
      | some l =>
        (.obj [("log", l), ("parameters", jobLogParams inspection_id)], 200)

theorem noTripleQuote_tail {c : Char} {t : List Char}
    (h : noTripleQuote (c :: t) = true) : noTripleQuote t = true := by
  match t with
  | [] => rfl
  | [b] => rfl
  | b :: c2 :: t3 =>
    simp only [noTripleQuote, Bool.and_eq_true] at h
    exact h.2

theorem escChars_cons_ne {c : Char} (hc : ¬c = sqc) (t : List Char) :
    escChars (c :: t) = c :: escChars t := by
  simp [escChars, hc]

theorem escChars_sqc_cons_ne {d : Char} (hd : ¬d = sqc) (t : List Char) :
    escChars (sqc :: d :: t) = sqc :: sqc :: escChars (d :: t) := by
  simp [escChars, hd]

theorem escChars_sqc_sqc (t : List Char) :
    escChars (sqc :: sqc :: t) = sqc :: escChars (sqc :: t) := by
  simp [escChars]

theorem unescChars_cons_ne {c : Char} (hc : ¬c = sqc) (t : List Char) :
    unescChars (c :: t) = c :: unescChars t := by
  match t with
  | [] => rfl
  | d :: t2 => simp [unescChars, hc]

theorem unescChars_sqc_sqc (t : List Char) :
    unescChars (sqc :: sqc :: t) = sqc :: unescChars t := by
  simp [unescChars]

theorem unescChars_sqc_ne {d : Char} (hd : ¬d = sqc) (t : List Char) :
    unescChars (sqc :: d :: t) = sqc :: unescChars (d :: t) := by
  simp [unescChars, hd]

theorem unescChars_escChars_len :
    ∀ (n : Nat) (s : List Char), s.length ≤ n → noTripleQuote s = true →
      unescChars (escChars s) = s := by
  intro n
  induction n with
  | zero =>
    intro s hl _
    have hs : s = [] := List.length_eq_zero.mp (Nat.le_zero.mp hl)
    subst hs; rfl
  | succ n ih =>
    intro s hl hq
    cases s with
    | nil => rfl
    | cons c rest =>
      by_cases hc : c = sqc
      · subst hc
        cases rest with
        | nil => rfl
        | cons d rest2 =>
          by_cases hd : d = sqc
          · subst hd
            cases rest2 with
            | nil => rfl
            | cons e rest3 =>
              have he : ¬e = sqc := by
                intro hE
                subst hE
                simp [noTripleQuote] at hq
              have hq3 : noTripleQuote (e :: rest3) = true :=
                noTripleQuote_tail (noTripleQuote_tail hq)
              have hlen : (e :: rest3).length ≤ n := by
                simp only [List.length_cons] at hl ⊢; omega
              rw [escChars_sqc_sqc, escChars_sqc_cons_ne he, escChars_cons_ne he,
                unescChars_sqc_sqc, unescChars_sqc_ne he, ← escChars_cons_ne he,
                ih (e :: rest3) hlen hq3]
          · have hq2 : noTripleQuote (d :: rest2) = true := noTripleQuote_tail hq
            have hlen : (d :: rest2).length ≤ n := by
              simp only [List.length_cons] at hl ⊢; omega
            rw [escChars_sqc_cons_ne hd, unescChars_sqc_sqc,
              ih (d :: rest2) hlen hq2]
      · have hq2 : noTripleQuote rest = true := noTripleQuote_tail hq
        have hlen : rest.length ≤ n := by
          simp only [List.length_cons] at hl; omega
        rw [escChars_cons_ne hc, unescChars_cons_ne hc, ih rest hlen hq2]

theorem unescChars_escChars (s : List Char) (h : noTripleQuote s = true) :
    unescChars (escChars s) = s :=
  unescChars_escChars_len s.length s le_rfl h

theorem unescStr_escStr (s : String) (h : noTripleQuote s.data = true) :
    unescStr (escStr s) = s := by
  cases s with
  | mk data =>
    simp only [escStr, unescStr]
    exact congrArg String.mk (unescChars_escChars data h)

mutual
/-- Unescaping after escaping restores a value all of whose string leaves
have quote runs of length at most 2. -/
theorem unescapeV_escapeV : ∀ v : Value, okQuotesV v = true →
    unescapeV (escapeV v) = v
  | .str s, h => congrArg Value.str (unescStr_escStr s h)
  | .intV _, _ => rfl
  | .boolV _, _ => rfl
  | .nullV, _ => rfl
  | .arr items, h => congrArg Value.arr (unescapeL_escapeL items h)
  | .obj fields, h => congrArg Value.obj (unescapeF_escapeF fields h)
/-- `unescapeV_escapeV` on every item of a list. -/
theorem unescapeL_escapeL : ∀ l : List Value, okQuotesL l = true →
    unescapeL (escapeL l) = l
  | [], _ => rfl
  | v :: rest, h => by
    have h2 : okQuotesV v = true ∧ okQuotesL rest = true := by
      simpa [okQuotesL, Bool.and_eq_true] using h
    simp only [escapeL, unescapeL]
    rw [unescapeV_escapeV v h2.1, unescapeL_escapeL rest h2.2]
/-- `unescapeV_escapeV` on every value of a dict. -/
theorem unescapeF_escapeF : ∀ f : Fields, okQuotesF f = true →
    unescapeF (escapeF f) = f
  | [], _ => rfl
  | (k, v) :: rest, h => by
    have h2 : okQuotesV v = true ∧ okQuotesF rest = true := by
      simpa [okQuotesF, Bool.and_eq_true] using h
    simp only [escapeF, unescapeF]
    rw [unescapeV_escapeV v h2.1, unescapeF_escapeF rest h2.2]
end

theorem getKey_escapeF (d : Fields) (k : String) :
    getKey (escapeF d) k = (getKey d k).map escapeV := by
  induction d with
  | nil => rfl
  | cons kv rest ih =>
    obtain ⟨k1, v1⟩ := kv
    by_cases h : k1 = k <;> simp [escapeF, getKey, h, ih]

theorem getKey_unescapeF (d : Fields) (k : String) :
    getKey (unescapeF d) k = (getKey d k).map unescapeV := by
  induction d with
  | nil => rfl
  | cons kv rest ih =>
    obtain ⟨k1, v1⟩ := kv
    by_cases h : k1 = k <;> simp [unescapeF, getKey, h, ih]

theorem hasKey_escapeF (d : Fields) (k : String) :
    hasKey (escapeF d) k = hasKey d k := by
  simp only [hasKey, getKey_escapeF]
  cases getKey d k <;> rfl

theorem hasKey_unescapeF (d : Fields) (k : String) :
    hasKey (unescapeF d) k = hasKey d k := by
  simp only [hasKey, getKey_unescapeF]
  cases getKey d k <;> rfl

theorem getKey_setKey_self (d : Fields) (k : String) (v : Value) :
    getKey (setKey d k v) k = some v := by
  induction d with
  | nil => simp [setKey, getKey]
  | cons kv rest ih =>
    by_cases h : kv.1 = k <;> simp [setKey, getKey, h, ih]

theorem getKey_setKey_ne (d : Fields) {k k2 : String} (h : ¬k2 = k)
    (v : Value) : getKey (setKey d k v) k2 = getKey d k2 := by
  have h3 : ¬k = k2 := fun hh => h hh.symm
  induction d with
  | nil => simp [setKey, getKey, h3]
  | cons kv rest ih =>
    obtain ⟨k1, v1⟩ := kv
    by_cases h1 : k1 = k
    · subst h1
      simp [setKey, getKey, h3]
    · by_cases h2 : k1 = k2 <;> simp [setKey, getKey, h1, h2, h, ih]

theorem hasKey_setKey_ne (d : Fields) {k k2 : String} (h : ¬k2 = k)
    (v : Value) : hasKey (setKey d k v) k2 = hasKey d k2 := by
  simp only [hasKey, getKey_setKey_ne d h]

theorem unescapeF_setKey (d : Fields) (k : String) (v : Value) :
    unescapeF (setKey d k v) = setKey (unescapeF d) k (unescapeV v) := by
  induction d with
  | nil => rfl
  | cons kv rest ih =>
    obtain ⟨k1, v1⟩ := kv
    by_cases h : k1 = k <;> simp [setKey, unescapeF, h, ih]

theorem parse_specification_noIntKeys (d : Fields)
    (h1 : getKey d "allowed_failures" = none)
    (h2 : getKey d "batch_size" = none)
    (h3 : getKey d "parallelism" = none) :
    parse_specification d = withDefaults (escapeF d) := by
  simp [parse_specification, withDefaults, int_to_str, castIntToStr,
    h1, h2, h3]

theorem unescapeF_withDefaults (d : Fields) :
    unescapeF (withDefaults d) = withDefaults (unescapeF d) := by
  unfold withDefaults
  cases hb : hasKey d "build" <;>
    cases hr : hasKey d "run" <;>
      simp [hb, hr, hasKey_unescapeF, unescapeF_setKey,
        hasKey_setKey_ne _ (show ¬"run" = "build" by decide), unescapeV,
        unescapeF]

theorem hasKey_withDefaults_ne (d : Fields) {k : String}
    (hb : ¬k = "build") (hr : ¬k = "run") :
    hasKey (withDefaults d) k = hasKey d k := by
  unfold withDefaults
  cases hbd : hasKey d "build" <;>
    cases hrd : hasKey d "run" <;>
      simp [hbd, hrd, hasKey_setKey_ne _ hb, hasKey_setKey_ne _ hr,
        hasKey_setKey_ne _ (show ¬"run" = "build" by decide)]

theorem foldlM_castStrToInt_skip (p : Fields) (keys : List String) :
    ∀ spec : Fields, (∀ k ∈ keys, hasKey spec k = false) →
      keys.foldlM (fun spec key => castStrToInt p spec key) spec =
        Except.ok spec := by
  induction keys with
  | nil => intro spec _; rfl
  | cons k ks ih =>
    intro spec h
    have hk : hasKey spec k = false := h k (by simp)
    have hrest : ∀ k2 ∈ ks, hasKey spec k2 = false :=
      fun k2 hk2 => h k2 (by simp [hk2])
    simp only [List.foldlM, castStrToInt, hk, Bool.false_eq_true, if_false]
    exact ih spec hrest

theorem unparse_parse_roundtrip (d : Fields)
    (h1 : getKey d "allowed_failures" = none)
    (h2 : getKey d "batch_size" = none)
    (h3 : getKey d "parallelism" = none)
    (hq : okQuotesF d = true) :
    unparse_specification (parse_specification d) =
      Except.ok (withDefaults d) := by
  rw [parse_specification_noIntKeys d h1 h2 h3]
  show str_to_int.foldlM
      (fun spec key => castStrToInt (withDefaults (escapeF d)) spec key)
      (unescapeF (withDefaults (escapeF d))) = Except.ok (withDefaults d)
  rw [unescapeF_withDefaults, unescapeF_escapeF d hq]
  apply foldlM_castStrToInt_skip
  intro k hk
  simp only [str_to_int, List.mem_cons, List.not_mem_nil, or_false] at hk
  rcases hk with rfl | rfl | rfl <;>
    rw [hasKey_withDefaults_ne d (by decide) (by decide)] <;>
      simp [hasKey, h1, h2, h3]

theorem parse_specification_eq_withDefaults (d : Fields) :
    parse_specification d =
      withDefaults (int_to_str.foldl (castIntToStr d) (escapeF d)) := rfl

theorem getKey_castIntToStr_none (d : Fields) {k : String}
    (h : getKey d k = none) (p : Fields) (key : String) :
    getKey (castIntToStr d p key) k = getKey p k := by
  unfold castIntToStr
  cases hg : getKey d key with
  | none => rfl
  | some v =>
    have hne : ¬k = key := by
      intro hE; subst hE; rw [h] at hg; exact Option.noConfusion hg
    exact getKey_setKey_ne p hne _

theorem getKey_foldl_castIntToStr (d : Fields) {k : String}
    (h : getKey d k = none) (keys : List String) :
    ∀ p : Fields, getKey (keys.foldl (castIntToStr d) p) k = getKey p k := by
  induction keys with
  | nil => intro p; rfl
  | cons key ks ih =>
    intro p
    rw [List.foldl_cons, ih, getKey_castIntToStr_none d h]

theorem getKey_withDefaults_ne (d : Fields) {k : String}
    (hb : ¬k = "build") (hr : ¬k = "run") :
    getKey (withDefaults d) k = getKey d k := by
  unfold withDefaults
  cases hbd : hasKey d "build" <;>
    cases hrd : hasKey d "run" <;>
      simp [hbd, hrd, getKey_setKey_ne _ hb, getKey_setKey_ne _ hr,
        hasKey_setKey_ne _ (show ¬"run" = "build" by decide)]

theorem castStrToInt_ok_getKey_ne (p spec spec2 : Fields) {key k2 : String}
    (hok : castStrToInt p spec key = Except.ok spec2) (hne : ¬k2 = key) :
    getKey spec2 k2 = getKey spec k2 := by
  unfold castStrToInt at hok
  by_cases hh : hasKey spec key = true
  · rw [if_pos hh] at hok
    cases hg : getKey p key with
    | none => simp [hg] at hok
    | some v =>
      simp only [hg] at hok
      cases hi : pyInt v with
      | error e => simp [hi, Except.map] at hok
      | ok n =>
        simp only [hi, Except.map, Except.ok.injEq] at hok
        rw [← hok]
        exact getKey_setKey_ne spec hne _
  · rw [if_neg hh] at hok
    rw [← Except.ok.inj hok]

theorem castStrToInt_preserve_none (p spec spec2 : Fields) {k : String}
    (h : getKey spec k = none) (key : String)
    (hok : castStrToInt p spec key = Except.ok spec2) :
    getKey spec2 k = none := by
  by_cases hne : k = key
  · subst hne
    unfold castStrToInt at hok
    have hh : hasKey spec k = false := by simp [hasKey, h]
    rw [hh] at hok
    simp only [Bool.false_eq_true, if_false] at hok
    rw [← Except.ok.inj hok]; exact h
  · rw [castStrToInt_ok_getKey_ne p spec spec2 hok hne]; exact h

theorem foldlM_castStrToInt_preserve_none (p : Fields) {k : String}
    (keys : List String) :
    ∀ spec spec2 : Fields, getKey spec k = none →
      keys.foldlM (fun spec key => castStrToInt p spec key) spec =
        Except.ok spec2 →
      getKey spec2 k = none := by
  induction keys with
  | nil =>
    intro spec spec2 h hok
    rw [← Except.ok.inj hok]; exact h
  | cons key ks ih =>
    intro spec spec2 h hok
    rw [List.foldlM_cons] at hok
    cases hstep : castStrToInt p spec key with
    | error e => rw [hstep] at hok; exact Except.noConfusion hok
    | ok spec1 =>
      rw [hstep] at hok
      exact ih spec1 spec2 (castStrToInt_preserve_none p spec spec1 h key hstep) hok

theorem except_bind_ok {α β : Type} (a : α) (f : α → Except String β) :
    (Except.ok a >>= f) = f a := rfl

theorem except_bind_error {α β : Type} (e : String) (f : α → Except String β) :
    ((Except.error e : Except String α) >>= f) = Except.error e := rfl

theorem castStrToInt_fail (d spec : Fields) {k s : String}
    (hv : getKey d k = some (.str s)) (hp : pyParseInt s = none)
    (hh : hasKey spec k = true) :
    castStrToInt d spec k =
      Except.error ("ValueError: invalid literal for int() with base 10: " ++ s) := by
  unfold castStrToInt
  rw [if_pos hh, hv]
  simp [pyInt, hp, Except.map]

/-- C5: for every parsed document in which one of `allowed_failures`,
`batch_size`, `parallelism` holds a string that is not a decimal literal,
`_unparse_specification` propagates the `int()` conversion error to the
caller — nothing inside the codec catches it. -/
theorem C5_unparse_nonnumeric_raises (d : Fields) (k s : String)
    (hk : k ∈ str_to_int) (hv : getKey d k = some (.str s))
    (hp : pyParseInt s = none) :
    ∃ e, unparse_specification d = Except.error e := by
  have hs0 : ∀ k2, getKey d k2 = some (.str s) →
      hasKey (unescapeF d) k2 = true := by
    intro k2 hv2; simp [hasKey, getKey_unescapeF, hv2]
  simp only [str_to_int, List.mem_cons, List.not_mem_nil, or_false] at hk
  unfold unparse_specification str_to_int
  rcases hk with rfl | rfl | rfl
  · refine ⟨"ValueError: invalid literal for int() with base 10: " ++ s, ?_⟩
    rw [List.foldlM_cons, castStrToInt_fail d _ hv hp (hs0 _ hv),
      except_bind_error]
  · cases h1 : castStrToInt d (unescapeF d) "allowed_failures" with
    | error e => exact ⟨e, by rw [List.foldlM_cons, h1, except_bind_error]⟩
    | ok spec1 =>
      have hh1 : hasKey spec1 "batch_size" = true := by
        rw [hasKey,
          castStrToInt_ok_getKey_ne d (unescapeF d) spec1 h1 (by decide),
          ← hasKey]
        exact hs0 _ hv
      refine ⟨"ValueError: invalid literal for int() with base 10: " ++ s, ?_⟩
      rw [List.foldlM_cons, h1, except_bind_ok, List.foldlM_cons,
        castStrToInt_fail d _ hv hp hh1, except_bind_error]
  · cases h1 : castStrToInt d (unescapeF d) "allowed_failures" with
    | error e => exact ⟨e, by rw [List.foldlM_cons, h1, except_bind_error]⟩
    | ok spec1 =>
      cases h2 : castStrToInt d spec1 "batch_size" with
      | error e =>
        exact ⟨e, by rw [List.foldlM_cons, h1, except_bind_ok,
          List.foldlM_cons, h2, except_bind_error]⟩
      | ok spec2 =>
        have hh2 : hasKey spec2 "parallelism" = true := by
          rw [hasKey,
            castStrToInt_ok_getKey_ne d spec1 spec2 h2 (by decide),
            castStrToInt_ok_getKey_ne d (unescapeF d) spec1 h1 (by decide),
            ← hasKey]
          exact hs0 _ hv
        refine ⟨"ValueError: invalid literal for int() with base 10: " ++ s, ?_⟩
        rw [List.foldlM_cons, h1, except_bind_ok, List.foldlM_cons, h2,
          except_bind_ok, List.foldlM_cons,
          castStrToInt_fail d _ hv hp hh2, except_bind_error]

theorem docAfterParse_keys (d : Fields) :
    (docAfterParse d).map Prod.fst = d.map Prod.fst := by
  simp [docAfterParse]

theorem docAfterParse_fixed : ∀ d : Fields,
    (∀ kv ∈ d, isContainer kv.2 = true → escapeV kv.2 = kv.2) →
    docAfterParse d = d := by
  intro d
  induction d with
  | nil => intro _; rfl
  | cons kv rest ih =>
    intro h
    obtain ⟨k1, v1⟩ := kv
    have h1 := h (k1, v1) (List.mem_cons_self _ _)
    have hrest : ∀ kv ∈ rest, isContainer kv.2 = true → escapeV kv.2 = kv.2 :=
      fun kv hkv => h kv (List.mem_cons_of_mem _ hkv)
    simp only [docAfterParse, List.map_cons]
    by_cases hc : isContainer v1 = true
    · rw [if_pos hc, h1 hc]
      exact congrArg (List.cons _) (ih hrest)
    · rw [if_neg hc]
      exact congrArg (List.cons _) (ih hrest)

theorem escChars_replicate : ∀ n : Nat, 1 ≤ n →
    escChars (List.replicate n sqc) = List.replicate (n + 1) sqc := by
  intro n
  induction n with
  | zero => intro h; exact absurd h (by decide)
  | succ m ih =>
    intro _
    cases m with
    | zero => rfl
    | succ m2 =>
      have ih2 := ih (by omega)
      simp only [List.replicate_succ] at ih2 ⊢
      rw [escChars_sqc_sqc, ih2]

theorem jobLog_404_unreachable (id : String) (fetch : JobLogFetch)
    (jsonLoads : String → Option Value) :
    get_inspection_job_log id fetch jsonLoads ≠ jobLogNotFound404 id := by
  cases fetch with
  | notFound =>
    simp [get_inspection_job_log, jobLogNotFoundHandler, jobLogNotFoundInnerTry,
      jobLogNotFound404, Prod.ext_iff]
  | fetched log =>
    by_cases hl : log = ""
    · simp [get_inspection_job_log, hl, jobLogNotFound404, Prod.ext_iff]
    · cases hjson : jsonLoads log with
      | none =>
        simp [get_inspection_job_log, hl, hjson, jobLogNotFound404, Prod.ext_iff]
      | some l =>
        simp [get_inspection_job_log, hl, hjson, jobLogNotFound404, Prod.ext_iff]

/-- C10: `_adjust_default_requests` creates the `requests` mapping when it
is missing and assigns `requests.cpu` / `requests.memory` the value
`requests.get(key) or default`: the default `"500m"` / `"256Mi"` is used
not only when the key is absent but whenever the present value is falsy
(empty string, `None`, zero, ...), and a truthy present value is kept; all
other entries of `requests` are untouched.  The mutation is in place; the
returned document is the argument's post-state. -/
theorem C10_adjust_default_requests (d : Fields) (r : Fields)
    (h : getKey d "requests" = some (.obj r) ∨
         (getKey d "requests" = none ∧ r = [])) :
    ∃ d2 r2, adjust_default_requests d = Except.ok d2 ∧
      getKey d2 "requests" = some (.obj r2) ∧
      getKey r2 "cpu" =
        some (pyOr (getDefaultNone r "cpu") DEFAULT_REQUESTS_cpu) ∧
      getKey r2 "memory" =
        some (pyOr (getDefaultNone r "memory") DEFAULT_REQUESTS_memory) ∧
      (∀ k2, ¬k2 = "cpu" → ¬k2 = "memory" → getKey r2 k2 = getKey r k2) := by
  have hmem : getDefaultNone (setKey r "cpu"
      (pyOr (getDefaultNone r "cpu") DEFAULT_REQUESTS_cpu)) "memory" =
      getDefaultNone r "memory" := by
    unfold getDefaultNone
    rw [getKey_setKey_ne r (show ¬"memory" = "cpu" by decide)]
  rcases h with hreq | ⟨hreq, rfl⟩
  · have hh : hasKey d "requests" = true := by simp [hasKey, hreq]
    refine ⟨setKey d "requests" (Value.obj (setKey
          (setKey r "cpu" (pyOr (getDefaultNone r "cpu") DEFAULT_REQUESTS_cpu))
          "memory" (pyOr (getDefaultNone r "memory") DEFAULT_REQUESTS_memory))),
        setKey
          (setKey r "cpu" (pyOr (getDefaultNone r "cpu") DEFAULT_REQUESTS_cpu))
          "memory" (pyOr (getDefaultNone r "memory") DEFAULT_REQUESTS_memory),
        ?_, ?_, ?_, ?_, ?_⟩
    · simp only [adjust_default_requests, hh, hreq, hmem, if_true]
    · exact getKey_setKey_self d "requests" _
    · rw [getKey_setKey_ne _ (show ¬"cpu" = "memory" by decide)]
      exact getKey_setKey_self r "cpu" _
    · exact getKey_setKey_self _ "memory" _
    · intro k2 hc hm
      rw [getKey_setKey_ne _ hm, getKey_setKey_ne _ hc]
  · have hh : hasKey d "requests" = false := by simp [hasKey, hreq]
    refine ⟨setKey (setKey d "requests" (Value.obj [])) "requests"
          (Value.obj (setKey
            (setKey [] "cpu" (pyOr (getDefaultNone [] "cpu") DEFAULT_REQUESTS_cpu))
            "memory" (pyOr (getDefaultNone [] "memory") DEFAULT_REQUESTS_memory))),
        setKey
          (setKey [] "cpu" (pyOr (getDefaultNone [] "cpu") DEFAULT_REQUESTS_cpu))
          "memory" (pyOr (getDefaultNone [] "memory") DEFAULT_REQUESTS_memory),
        ?_, ?_, ?_, ?_, ?_⟩
    · simp only [adjust_default_requests, hh, Bool.false_eq_true, if_false,
        getKey_setKey_self d "requests", hmem]
    · exact getKey_setKey_self _ "requests" _
    · rw [getKey_setKey_ne _ (show ¬"cpu" = "memory" by decide)]
      exact getKey_setKey_self [] "cpu" _
    · exact getKey_setKey_self _ "memory" _
    · intro k2 hc hm
      rw [getKey_setKey_ne _ hm, getKey_setKey_ne _ hc]

theorem getKey_parse_none (d : Fields) {k : String}
    (hb : ¬k = "build") (hr : ¬k = "run")
    (h : getKey d k = none) :
    getKey (parse_specification d) k = none := by
  rw [parse_specification_eq_withDefaults, getKey_withDefaults_ne _ hb hr,
    getKey_foldl_castIntToStr d h, getKey_escapeF, h]
  rfl

theorem postInspectionSuccessReturn_nameError (specification : Fields) (dockerfile : String)
    (run_job_or_error run_job : Value) (parameters : Fields)
    (use_hw_template : Bool) (target workflow_id : String) :
    postInspectionSuccessReturn
      (postInspectionLocals specification dockerfile run_job_or_error run_job
        parameters use_hw_template target workflow_id) =
      Except.error "NameError: name inspection_id is not defined" := rfl

/-! ## The claims -/

/-- C1, counterexample: the round trip fails on a document whose only
string leaf is four single quotes — two doubled pairs, well-paired quote
usage — and which contains none of the three integer keys.  Escaping turns
the run of 4 quotes into 5 (the last quote of the run is not followed by a
quote and gets doubled) and unescaping 5 quotes gives 3, so the leaf comes
back as three quotes instead of four. -/
theorem C1_counterexample :
    unparse_specification (parse_specification
        [("k", Value.str (String.mk [sqc, sqc, sqc, sqc]))]) =
      Except.ok [("k", Value.str (String.mk [sqc, sqc, sqc])),
        ("build", Value.obj []), ("run", Value.obj [])] ∧
    String.mk [sqc, sqc, sqc] ≠ String.mk [sqc, sqc, sqc, sqc] :=
  ⟨rfl, by decide⟩

/-- C1, amended: for every document without the keys `allowed_failures`,
`batch_size` and `parallelism`, all of whose string leaves have single-quote
runs of length at most 2 (no three consecutive quotes),
`_unparse_specification (_parse_specification d)` succeeds and returns `d`
with empty `build`/`run` mappings appended when absent. -/
theorem C1_amended_roundtrip (d : Fields)
    (h1 : getKey d "allowed_failures" = none)
    (h2 : getKey d "batch_size" = none)
    (h3 : getKey d "parallelism" = none)
    (hq : okQuotesF d = true) :
    unparse_specification (parse_specification d) =
      Except.ok (withDefaults d) :=
  unparse_parse_roundtrip d h1 h2 h3 hq

/-- C1, witness: the amended round trip at a concrete document with an
escaped-quote leaf and a nested `build` mapping. -/
theorem C1_amended_roundtrip_witness :
    getKey [("note", Value.str (String.mk ['a', sqc, 'b'])),
        ("build", Value.obj [("x", Value.str (String.mk [sqc, sqc]))])]
        "allowed_failures" = none ∧
    okQuotesF [("note", Value.str (String.mk ['a', sqc, 'b'])),
        ("build", Value.obj [("x", Value.str (String.mk [sqc, sqc]))])] = true ∧
    unparse_specification (parse_specification
        [("note", Value.str (String.mk ['a', sqc, 'b'])),
         ("build", Value.obj [("x", Value.str (String.mk [sqc, sqc]))])]) =
      Except.ok (withDefaults
        [("note", Value.str (String.mk ['a', sqc, 'b'])),
         ("build", Value.obj [("x", Value.str (String.mk [sqc, sqc]))])]) :=
  ⟨rfl, rfl,
    C1_amended_roundtrip
      [("note", Value.str (String.mk ['a', sqc, 'b'])),
       ("build", Value.obj [("x", Value.str (String.mk [sqc, sqc]))])]
      rfl rfl rfl rfl⟩

/-- C2, counterexample: `_parse_specification` takes a shallow copy only,
so escaping a nested mapping mutates the caller's document: after the call
on `{"a": {"note": "O'R"}}` the caller's nested `note` leaf has become
`"O''R"` — the original document is NOT unchanged. -/
theorem C2_counterexample :
    docAfterParse
        [("a", Value.obj [("note", Value.str (String.mk ['O', sqc, 'R']))])] ≠
      [("a", Value.obj [("note", Value.str (String.mk ['O', sqc, 'R']))])] := by
  intro h
  have h2 : (String.mk ['O', sqc, sqc, 'R']) = String.mk ['O', sqc, 'R'] :=
    congrArg (fun l =>
      match getKey l "a" with
      | some (Value.obj f) =>
        match getKey f "note" with
        | some (Value.str s) => s
        | _ => ""
      | _ => "") h
  exact absurd h2 (by decide)

/-- C2, amended: `_parse_specification` copies only the top level: the
caller's document keeps exactly its keys, and it is unchanged whenever each
of its dict or list values is left fixed by in-place escaping (in
particular, whenever no nested string leaf holds a quote); top-level
non-container values are never touched. -/
theorem C2_amended_shallow_copy (d : Fields) :
    (docAfterParse d).map Prod.fst = d.map Prod.fst ∧
    ((∀ kv ∈ d, isContainer kv.2 = true → escapeV kv.2 = kv.2) →
      docAfterParse d = d) :=
  ⟨docAfterParse_keys d, docAfterParse_fixed d⟩

/-- C2, witness: a document whose nested mapping holds no quotes is indeed
left unchanged by the call. -/
theorem C2_amended_shallow_copy_witness :
    (docAfterParse [("x", Value.obj [("n", Value.str "hi")]),
        ("y", Value.str "z")]).map Prod.fst =
      [("x", Value.obj [("n", Value.str "hi")]),
        ("y", Value.str "z")].map Prod.fst ∧
    docAfterParse [("x", Value.obj [("n", Value.str "hi")]),
        ("y", Value.str "z")] =
      [("x", Value.obj [("n", Value.str "hi")]), ("y", Value.str "z")] :=
  ⟨(C2_amended_shallow_copy _).1,
   (C2_amended_shallow_copy _).2 (by
      intro kv hkv hc
      simp only [List.mem_cons, List.not_mem_nil, or_false] at hkv
      rcases hkv with rfl | rfl <;> rfl)⟩

/-- C3, counterexample: escaping does NOT preserve a pre-existing doubled
pair verbatim: the second quote of the pair is not followed by another
quote, so it is itself doubled, and escaping the two-quote string yields
three quotes, not two. -/
theorem C3_counterexample :
    escStr (String.mk [sqc, sqc]) = String.mk [sqc, sqc, sqc] ∧
    String.mk [sqc, sqc, sqc] ≠ String.mk [sqc, sqc] :=
  ⟨rfl, by decide⟩

/-- C3, amended: the escape regex matches a single quote only when it is
not immediately followed by another single quote, so in a run of `n ≥ 1`
quotes exactly the last one matches and the run becomes `n + 1` quotes; a
doubled pair is therefore preserved in its interior but its closing quote
is re-escaped (`''` becomes `'''`). -/
theorem C3_amended_quote_runs (n : Nat) (h : 1 ≤ n) :
    escChars (List.replicate n sqc) = List.replicate (n + 1) sqc :=
  escChars_replicate n h

/-- C3, witness: the doubled pair, a run of 2, escapes to a run of 3. -/
theorem C3_amended_quote_runs_witness :
    escChars (List.replicate 2 sqc) = List.replicate 3 sqc :=
  C3_amended_quote_runs 2 (by decide)

/-- C4: in `post_inspection`, on the path where dockerfile generation and
the scheduling call both succeed, the 202 response references the name
`inspection_id`, which is bound nowhere among the function's locals, so
evaluating the return expression raises `NameError` instead of returning
the 202 tuple — for every possible value of the genuinely bound locals. -/
theorem C4_inspection_id_unbound (specification : Fields) (dockerfile : String)
    (run_job_or_error run_job : Value) (parameters : Fields)
    (use_hw_template : Bool) (target workflow_id : String) :
    getKey (postInspectionLocals specification dockerfile run_job_or_error
        run_job parameters use_hw_template target workflow_id)
        "inspection_id" = none ∧
    postInspectionSuccessReturn
      (postInspectionLocals specification dockerfile run_job_or_error run_job
        parameters use_hw_template target workflow_id) =
      Except.error "NameError: name inspection_id is not defined" :=
  ⟨rfl, rfl⟩

/-- C6: parsing `{"allowed_failures": 2}` casts the integer to its decimal
string and appends empty `build` and `run` mappings, and nothing else. -/
theorem C6_parse_allowed_failures :
    parse_specification [("allowed_failures", Value.intV 2)] =
      [("allowed_failures", Value.str "2"), ("build", Value.obj []),
       ("run", Value.obj [])] := rfl

/-- C7: parsing turns a `note` leaf `O'Reilly` into `O''Reilly`, and
unparsing turns a `note` leaf `O''Reilly` back into `O'Reilly`. -/
theorem C7_oreilly_escape :
    parse_specification
        [("note", Value.str (String.mk ['O', sqc, 'R', 'e', 'i', 'l', 'l', 'y']))] =
      [("note", Value.str (String.mk ['O', sqc, sqc, 'R', 'e', 'i', 'l', 'l', 'y'])),
       ("build", Value.obj []), ("run", Value.obj [])] ∧
    unparse_specification
        [("note", Value.str (String.mk ['O', sqc, sqc, 'R', 'e', 'i', 'l', 'l', 'y']))] =
      Except.ok
        [("note", Value.str (String.mk ['O', sqc, 'R', 'e', 'i', 'l', 'l', 'y']))] :=
  ⟨rfl, rfl⟩

/-- C8: when one of `allowed_failures`, `batch_size`, `parallelism` is
absent from the document, parsing adds no such key, and neither does a
successful unparse: the casting loops skip absent keys. -/
theorem C8_absent_int_fields (d : Fields) (k : String) (hk : k ∈ int_to_str)
    (h : getKey d k = none) :
    getKey (parse_specification d) k = none ∧
    ∀ d2, unparse_specification d = Except.ok d2 → getKey d2 k = none := by
  have hbr : ¬k = "build" ∧ ¬k = "run" := by
    simp only [int_to_str, List.mem_cons, List.not_mem_nil, or_false] at hk
    rcases hk with rfl | rfl | rfl <;> exact ⟨by decide, by decide⟩
  refine ⟨getKey_parse_none d hbr.1 hbr.2 h, ?_⟩
  intro d2 hok
  have h0 : getKey (unescapeF d) k = none := by
    rw [getKey_unescapeF, h]; rfl
  exact foldlM_castStrToInt_preserve_none d str_to_int (unescapeF d) d2 h0 hok

/-- C8, witness: on `{"batch_size": 1}` the key `allowed_failures` is
absent from the parse result and from the (successful) unparse result. -/
theorem C8_absent_int_fields_witness :
    getKey (parse_specification [("batch_size", Value.intV 1)])
      "allowed_failures" = none ∧
    ∀ d2, unparse_specification [("batch_size", Value.intV 1)] =
        Except.ok d2 →
      getKey d2 "allowed_failures" = none :=
  C8_absent_int_fields [("batch_size", Value.intV 1)] "allowed_failures"
    (by decide) rfl

/-- C9: whenever `_OPENSHIFT.get_job_log` raises `NotFoundException`,
`get_inspection_job_log` returns the 202 "no logs available yet" response:
the inner `try` body just builds and returns a literal tuple, which cannot
raise `NotFoundException`, so the 404 "job log was not found" return below
it is unreachable — no input produces that response. -/
theorem C9_notFound_always_202 (inspection_id : String)
    (fetch : JobLogFetch) (jsonLoads : String → Option Value) :
    get_inspection_job_log inspection_id JobLogFetch.notFound jsonLoads =
      (Value.obj
        [("error", Value.str "No logs available yet for the given inspection id"),
         ("parameters", jobLogParams inspection_id)], 202) ∧
    get_inspection_job_log inspection_id fetch jsonLoads ≠
      jobLogNotFound404 inspection_id :=
  ⟨rfl, jobLog_404_unreachable inspection_id fetch jsonLoads⟩

/-- C5, witness: unparsing `{"allowed_failures": "abc"}` raises. -/
theorem C5_unparse_nonnumeric_raises_witness :
    getKey [("allowed_failures", Value.str "abc")] "allowed_failures" =
      some (Value.str "abc") ∧
    pyParseInt "abc" = none ∧
    ∃ e, unparse_specification [("allowed_failures", Value.str "abc")] =
      Except.error e :=
  ⟨rfl, rfl,
    C5_unparse_nonnumeric_raises [("allowed_failures", Value.str "abc")]
      "allowed_failures" "abc" (by decide) rfl rfl⟩

/-- C10, witness: on `{"requests": {"cpu": ""}}` the falsy empty string is
overwritten with the default and the missing memory key is defaulted. -/
theorem C10_adjust_default_requests_witness :
    ∃ d2 r2,
      adjust_default_requests
          [("requests", Value.obj [("cpu", Value.str "")])] =
        Except.ok d2 ∧
      getKey d2 "requests" = some (Value.obj r2) ∧
      getKey r2 "cpu" =
        some (pyOr (getDefaultNone [("cpu", Value.str "")] "cpu")
          DEFAULT_REQUESTS_cpu) ∧
      getKey r2 "memory" =
        some (pyOr (getDefaultNone [("cpu", Value.str "")] "memory")
          DEFAULT_REQUESTS_memory) ∧
      (∀ k2, ¬k2 = "cpu" → ¬k2 = "memory" →
        getKey r2 k2 = getKey [("cpu", Value.str "")] k2) :=
  C10_adjust_default_requests
    [("requests", Value.obj [("cpu", Value.str "")])]
    [("cpu", Value.str "")] (Or.inl rfl)
